import Mathlib

/-!
Shallow embedding of the LaunchLab vision core.

The repository contains two algorithmic entry points:
a thin glue function around an external pyramidal Lucas-Kanade tracker
(src/Engine/PyrLKFlow.cpp) and a minimal EPnP pose solver whose public
interface and private stage decomposition are declared in
src/Cpp/EPnP.hpp.  Real scalars are modelled by rationals, so float
rounding is idealised but every algebraic relation of the code is kept.
-/

namespace LaunchLab

/-- A 2D point with pixel coordinates, playing the role of cv Point2f and
of the image-point entries of the EPnP solver. -/
structure V2 where
  u : ℚ
  v : ℚ
  deriving DecidableEq

/-- A 3D point, playing the role of the 3-float arrays holding world
points in src/Cpp/EPnP.hpp. -/
structure V3 where
  x : ℚ
  y : ℚ
  z : ℚ
  deriving DecidableEq

/-- A 3 by 3 matrix given by its three rows, playing the role of the
nested 3-float arrays used for rotations in src/Cpp/EPnP.hpp. -/
structure M3 where
  a : V3
  b : V3
  c : V3
  deriving DecidableEq

def V3.add (p q : V3) : V3 := ⟨p.x + q.x, p.y + q.y, p.z + q.z⟩

def V3.sub (p q : V3) : V3 := ⟨p.x - q.x, p.y - q.y, p.z - q.z⟩

def V3.smul (k : ℚ) (p : V3) : V3 := ⟨k * p.x, k * p.y, k * p.z⟩

def V3.dot (p q : V3) : ℚ := p.x * q.x + p.y * q.y + p.z * q.z

def V3.zero : V3 := ⟨0, 0, 0⟩

def V3.sumList (l : List V3) : V3 := l.foldr V3.add V3.zero

def M3.mulVec (m : M3) (p : V3) : V3 := ⟨V3.dot m.a p, V3.dot m.b p, V3.dot m.c p⟩

def M3.transpose (m : M3) : M3 :=
  ⟨⟨m.a.x, m.b.x, m.c.x⟩, ⟨m.a.y, m.b.y, m.c.y⟩, ⟨m.a.z, m.b.z, m.c.z⟩⟩

def M3.mulM (m n : M3) : M3 :=
  let nt := M3.transpose n
  ⟨⟨V3.dot m.a nt.a, V3.dot m.a nt.b, V3.dot m.a nt.c⟩,
   ⟨V3.dot m.b nt.a, V3.dot m.b nt.b, V3.dot m.b nt.c⟩,
   ⟨V3.dot m.c nt.a, V3.dot m.c nt.b, V3.dot m.c nt.c⟩⟩

def M3.addM (m n : M3) : M3 := ⟨V3.add m.a n.a, V3.add m.b n.b, V3.add m.c n.c⟩

def M3.subM (m n : M3) : M3 := ⟨V3.sub m.a n.a, V3.sub m.b n.b, V3.sub m.c n.c⟩

def M3.smulM (k : ℚ) (m : M3) : M3 := ⟨V3.smul k m.a, V3.smul k m.b, V3.smul k m.c⟩

def M3.zeroM : M3 := ⟨V3.zero, V3.zero, V3.zero⟩

def M3.idM : M3 := ⟨⟨1, 0, 0⟩, ⟨0, 1, 0⟩, ⟨0, 0, 1⟩⟩

def M3.sumListM (l : List M3) : M3 := l.foldr M3.addM M3.zeroM

/-- Outer product of two vectors, used to accumulate covariance matrices. -/
def M3.outer (p q : V3) : M3 :=
  ⟨⟨p.x * q.x, p.x * q.y, p.x * q.z⟩,
   ⟨p.y * q.x, p.y * q.y, p.y * q.z⟩,
   ⟨p.z * q.x, p.z * q.y, p.z * q.z⟩⟩

/-- Determinant of a 3 by 3 matrix given by its nine entries. -/
def det3x (a b c d e f g h i : ℚ) : ℚ :=
  a * (e * i - f * h) - b * (d * i - f * g) + c * (d * h - e * g)

def det3 (m : M3) : ℚ :=
  det3x m.a.x m.a.y m.a.z m.b.x m.b.y m.b.z m.c.x m.c.y m.c.z

/-- Adjugate of a 3 by 3 matrix, the classical cofactor transpose. -/
def adj3 (m : M3) : M3 :=
  ⟨⟨m.b.y * m.c.z - m.b.z * m.c.y,
    m.a.z * m.c.y - m.a.y * m.c.z,
    m.a.y * m.b.z - m.a.z * m.b.y⟩,
   ⟨m.b.z * m.c.x - m.b.x * m.c.z,
    m.a.x * m.c.z - m.a.z * m.c.x,
    m.a.z * m.b.x - m.a.x * m.b.z⟩,
   ⟨m.b.x * m.c.y - m.b.y * m.c.x,
    m.a.y * m.c.x - m.a.x * m.c.y,
    m.a.x * m.b.y - m.a.y * m.b.x⟩⟩

/-- Squared Frobenius norm of a 3 by 3 matrix. -/
def frobSq (m : M3) : ℚ :=
  V3.dot m.a m.a + V3.dot m.b m.b + V3.dot m.c m.c

/-- Determinant of a 4 by 4 matrix given by its sixteen entries in row
major order, expanded along the first row. -/
def det4x (a11 a12 a13 a14 a21 a22 a23 a24 a31 a32 a33 a34 a41 a42 a43 a44 : ℚ) : ℚ :=
  a11 * det3x a22 a23 a24 a32 a33 a34 a42 a43 a44
  - a12 * det3x a21 a23 a24 a31 a33 a34 a41 a43 a44
  + a13 * det3x a21 a22 a24 a31 a32 a34 a41 a42 a44
  - a14 * det3x a21 a22 a23 a31 a32 a33 a41 a42 a43

/-! ## Pyramidal Lucas-Kanade glue, from src/Engine/PyrLKFlow.cpp -/

/-- A grayscale luminance image, the role cv Mat plays in PyrLKFlow. -/
abbrev Luma := List (List ℕ)

/-- Termination criteria of the iterative tracker, mirroring
cv TermCriteria with a type bitmask, an iteration bound and an epsilon. -/
structure TermCriteria where
  typ : ℕ
  maxCount : ℕ
  epsilon : ℚ
  deriving DecidableEq

/-- Bitmask bit of the count-based termination criterion in OpenCV. -/
def TermCriteriaCOUNT : ℕ := 1

/-- Bitmask bit of the epsilon-based termination criterion in OpenCV. -/
def TermCriteriaEPS : ℕ := 2

/-- The full argument tuple of one call to the external tracker
cv calcOpticalFlowPyrLK, in positional order: the two images, the input
points, the initial values handed over in the three output arrays, the
window size, the pyramid depth, the termination criteria, the flag word
and the minimum eigenvalue threshold. -/
structure LKArgs where
  prevImg : Luma
  nextImg : Luma
  prevPts : List V2
  nextPtsInit : List V2
  statusInit : List ℕ
  errInit : List ℚ
  winW : ℕ
  winH : ℕ
  maxLevel : ℕ
  crit : TermCriteria
  flags : ℕ
  minEigThreshold : ℚ
  deriving DecidableEq

/-- The external pyramidal Lucas-Kanade collaborator (the OpenCV library,
which is outside this repository), modelled as an abstract function from
the call arguments to the three output arrays: tracked points, status
bytes and error scalars. -/
abbrev Tracker := LKArgs → List V2 × List ℕ × List ℚ

/-- The documented shape contract of the external tracker: each of the
three output arrays carries exactly one entry per input point. -/
def alignedTracker (track : Tracker) : Prop :=
  ∀ a : LKArgs,
    (track a).1.length = a.prevPts.length ∧
    (track a).2.1.length = a.prevPts.length ∧
    (track a).2.2.length = a.prevPts.length

/-- launchlab computePyrLK from src/Engine/PyrLKFlow.cpp.  On empty input
it returns three empty arrays without calling the tracker; otherwise it
seeds the output points with the input points, zero-fills the status and
error arrays, and calls the tracker with a 21 by 21 window, 3 pyramid
levels, combined count and epsilon termination at 30 iterations and
epsilon 0.01, flag word 0 and minimum eigenvalue threshold 0.0001. -/
def computePyrLK (track : Tracker) (prevGray currGray : Luma)
    (prevPoints : List V2) : List V2 × List ℕ × List ℚ :=
  if prevPoints.isEmpty then ([], [], [])
  else
    let outPoints := prevPoints
    let status := List.replicate prevPoints.length 0
    let error := List.replicate prevPoints.length (0 : ℚ)
    track { prevImg := prevGray, nextImg := currGray, prevPts := prevPoints,
            nextPtsInit := outPoints, statusInit := status, errInit := error,
            winW := 21, winH := 21, maxLevel := 3,
            crit := { typ := Nat.lor TermCriteriaCOUNT TermCriteriaEPS,
                      maxCount := 30, epsilon := 1 / 100 },
            flags := 0, minEigThreshold := 1 / 10000 }

/-! ## EPnP pose solver, interface from src/Cpp/EPnP.hpp

The translation unit defining the bodies of EPnP::compute and its private
stage helpers is not under src/ (only the header is), so the stages are
modelled from the spec, as the doc comments below record.  The candidate
pose generation pipeline (principal-direction control points, null-space
extraction of the 2n by 12 projection system, beta recovery) rests on
floating-point eigen-decompositions whose exact values are irrational; it
is therefore abstracted into a generator parameter, while the parts the
spec pins down algebraically (input check, degeneracy check, barycentric
solve, reprojection scoring, candidate selection, success flag) are
modelled concretely. -/

/-- Result of one EPnP solve, from struct EPnPResult in src/Cpp/EPnP.hpp.
Modelled from the spec: the reprojection error field stores the squared
RMS value, since over the rationals the square root is unavailable and
equality or comparison of squared values is equivalent to that of the RMS
values themselves. -/
structure EPnPResult where
  R : M3
  t : V3
  rmsError : ℚ
  success : Bool
  deriving DecidableEq

/-- Solver instance state: the private fields of class EPnP declared in
src/Cpp/EPnP.hpp (expected point count, intrinsics, world points, image
points). -/
structure EPnP where
  nPoints : ℕ
  fx : ℚ
  fy : ℚ
  cx : ℚ
  cy : ℚ
  pw : List V3
  pi : List V2
  deriving DecidableEq

/-- Constructor EPnP(int n): a fresh instance expecting n correspondences,
with zeroed intrinsics and no correspondences yet. -/
def EPnP.init (n : ℕ) : EPnP := ⟨n, 0, 0, 0, 0, [], []⟩

/-- EPnP::setIntrinsics from src/Cpp/EPnP.hpp: stores the four pinhole
scalars. -/
def setIntrinsics (s : EPnP) (fx fy cx cy : ℚ) : EPnP :=
  { s with fx := fx, fy := fy, cx := cx, cy := cy }

/-- EPnP::setCorrespondences from src/Cpp/EPnP.hpp: stores the two
index-aligned sequences of world and image points. -/
def setCorrespondences (s : EPnP) (worldPts : List V3) (imagePts : List V2) : EPnP :=
  { s with pw := worldPts, pi := imagePts }

/-- A rigid-transform candidate: a rotation matrix and a translation. -/
structure Pose where
  R : M3
  t : V3
  deriving DecidableEq

/-- Pinhole projection of a world point under a pose, from the spec model
u = fx·X/Z + cx, v = fy·Y/Z + cy applied to the camera-frame point
R·p + t. -/
def project (fx fy cx cy : ℚ) (ps : Pose) (p : V3) : V2 :=
  let q := V3.add (M3.mulVec ps.R p) ps.t
  ⟨fx * q.x / q.z + cx, fy * q.y / q.z + cy⟩

/-- Squared pixel distance between two image points. -/
def sqDist (a b : V2) : ℚ := (a.u - b.u) ^ 2 + (a.v - b.v) ^ 2

/-- EPnP::reprojectionError, modelled from the spec: reproject all world
points with the candidate pose and the stored intrinsics and average the
squared pixel distance to the stored image points (squared RMS). -/
def reprojectionError (s : EPnP) (ps : Pose) : ℚ :=
  ((s.pw.zip s.pi).map
    (fun pr => sqDist (project s.fx s.fy s.cx s.cy ps pr.1) pr.2)).sum
    / ((s.pw.length : ℚ))

/-- Centroid of a list of world points. -/
def centroid (l : List V3) : V3 :=
  V3.smul (1 / (l.length : ℚ)) (V3.sumList l)

/-- Covariance matrix of a point cloud about its centroid, modelled from
the spec section on the Control Point Selector. -/
def covariance (l : List V3) : M3 :=
  M3.smulM (1 / (l.length : ℚ))
    (M3.sumListM (l.map (fun p =>
      M3.outer (V3.sub p (centroid l)) (V3.sub p (centroid l)))))

/-- Modelled from the spec: the conditioning check of the Control Point
Selector (EPnP::computeControlPoints, whose body is not under src/).  A
near-zero eigenvalue of the covariance means a degenerate point cloud; in
exact rational arithmetic this is equivalent to a vanishing determinant,
the product of the eigenvalues. -/
def degenerateGeometry (l : List V3) : Bool :=
  decide (det3 (covariance l) = 0)

/-- Tolerance of the orthonormality acceptance check on rotations. -/
def orthoTol : ℚ := 1 / 1000000

/-- The orthonormality check of the spec: the squared Frobenius distance
from R·Rᵗ to the identity is within tolerance and the determinant is 1
within tolerance (squared comparison, keeping everything rational). -/
def isOrthonormal (m : M3) : Bool :=
  decide (frobSq (M3.subM (M3.mulM m (M3.transpose m)) M3.idM) ≤ orthoTol ∧
    (det3 m - 1) ^ 2 ≤ orthoTol)

/-- Modelled from the spec: the large sentinel reprojection error reported
on the fail-fast paths. -/
def sentinelError : ℚ := 1000000000

/-- Modelled from the spec: the EPnPResult returned on the fail-fast
paths, with success cleared and the sentinel error value. -/
def failureResult : EPnPResult := ⟨M3.idM, V3.zero, sentinelError, false⟩

/-- Abstract candidate-pose generator covering spec stages 1 to 4 other
than their conditioning checks: from the world points, image points and
intrinsics it produces the list of candidate poses (one per beta model
order).  Its numeric content (eigen-decompositions, square roots, SVD) is
irrational and implementation-defined, hence kept abstract. -/
abbrev PoseGen := List V3 → List V2 → ℚ → ℚ → ℚ → ℚ → List Pose

/-- The candidate of lower reprojection error, ties keeping the first. -/
def betterPose (s : EPnP) (p q : Pose) : Pose :=
  if reprojectionError s q < reprojectionError s p then q else p

/-- Minimum-error fold over the candidate list, modelled from the spec
section on the Pose Extractor and Selector. -/
def selectPose (s : EPnP) (c : Pose) (cs : List Pose) : Pose :=
  cs.foldl (betterPose s) c

/-- Modelled from the spec: EPnP::compute, whose body is not under src/.
It fails fast with the sentinel result when fewer than 4 correspondences
are present, then runs the degeneracy conditioning check, then obtains
the candidate poses from the generator, scores each by reprojection,
keeps the best and packages it with the orthonormality-gated success
flag.  Over the rationals every score is finite, so the finiteness part
of the success condition of the spec holds trivially. -/
def compute (gen : PoseGen) (s : EPnP) : EPnPResult :=
  if s.pw.length < 4 ∨ s.pi.length < 4 then failureResult
  else if degenerateGeometry s.pw then failureResult
  else
    match gen s.pw s.pi s.fx s.fy s.cx s.cy with
    | [] => failureResult
    | c :: cs =>
      let best := selectPose s c cs
      ⟨best.R, best.t, reprojectionError s best, isOrthonormal best.R⟩

/-! ## Barycentric encoder, from the declaration of
EPnP::computeBarycentric in src/Cpp/EPnP.hpp -/

/-- Determinant of the homogeneous control-point matrix whose columns are
the four control points extended by 1, modelled from the spec section on
the Barycentric Encoder. -/
def controlMatDet (c1 c2 c3 c4 : V3) : ℚ :=
  det4x c1.x c2.x c3.x c4.x c1.y c2.y c3.y c4.y c1.z c2.z c3.z c4.z 1 1 1 1

/-- Cramer numerator of the first barycentric weight: first column
replaced by the homogeneous world point. -/
def baryNum1 (c1 c2 c3 c4 p : V3) : ℚ :=
  det4x p.x c2.x c3.x c4.x p.y c2.y c3.y c4.y p.z c2.z c3.z c4.z 1 1 1 1

/-- Cramer numerator of the second barycentric weight. -/
def baryNum2 (c1 c2 c3 c4 p : V3) : ℚ :=
  det4x c1.x p.x c3.x c4.x c1.y p.y c3.y c4.y c1.z p.z c3.z c4.z 1 1 1 1

/-- Cramer numerator of the third barycentric weight. -/
def baryNum3 (c1 c2 c3 c4 p : V3) : ℚ :=
  det4x c1.x c2.x p.x c4.x c1.y c2.y p.y c4.y c1.z c2.z p.z c4.z 1 1 1 1

/-- Cramer numerator of the fourth barycentric weight. -/
def baryNum4 (c1 c2 c3 c4 p : V3) : ℚ :=
  det4x c1.x c2.x c3.x p.x c1.y c2.y c3.y p.y c1.z c2.z c3.z p.z 1 1 1 1

/-- Modelled from the spec: the per-point solve of the Barycentric
Encoder, solving the 4-unknown homogeneous system by Cramer where the
right-hand side is the world point extended by 1. -/
def baryWeights (c1 c2 c3 c4 p : V3) : ℚ × ℚ × ℚ × ℚ :=
  let d := controlMatDet c1 c2 c3 c4
  (baryNum1 c1 c2 c3 c4 p / d, baryNum2 c1 c2 c3 c4 p / d,
   baryNum3 c1 c2 c3 c4 p / d, baryNum4 c1 c2 c3 c4 p / d)

/-- Modelled from the spec: EPnP::computeBarycentric, whose body is not
under src/: one weight 4-tuple per world point, each obtained from the
shared control-point system. -/
def computeBarycentric (c1 c2 c3 c4 : V3) (pwl : List V3) : List (ℚ × ℚ × ℚ × ℚ) :=
  pwl.map (baryWeights c1 c2 c3 c4)

/-- Affine combination of the four control points with a weight tuple. -/
def baryCombo (c1 c2 c3 c4 : V3) (w : ℚ × ℚ × ℚ × ℚ) : V3 :=
  V3.add (V3.smul w.1 c1)
    (V3.add (V3.smul w.2.1 c2)
      (V3.add (V3.smul w.2.2.1 c3) (V3.smul w.2.2.2 c4)))

/-! ## Instance-trace model of the solver API -/

/-- One operation on a solver instance, from the public interface of
class EPnP in src/Cpp/EPnP.hpp. -/
inductive EPnPOp where
  | setIntr (fx fy cx cy : ℚ)
  | setCorr (worldPts : List V3) (imagePts : List V2)
  | solve
  deriving DecidableEq

/-- State transition of one operation.  Modelled from the spec: the solve
operation consumes the current instance state and returns its result
immutably, leaving the stored state unchanged. -/
def applyOp (s : EPnP) : EPnPOp → EPnP
  | EPnPOp.setIntr fx fy cx cy => setIntrinsics s fx fy cx cy
  | EPnPOp.setCorr w im => setCorrespondences s w im
  | EPnPOp.solve => s

/-- Folds a list of operations over an instance state. -/
def runOps (s : EPnP) (ops : List EPnPOp) : EPnP := ops.foldl applyOp s

/-! ## Concrete evaluation fixtures -/

/-- A generator producing the single identity-pose candidate. -/
def genId : PoseGen := fun _ _ _ _ _ _ => [⟨M3.idM, V3.zero⟩]

/-- A well-conditioned instance: the four tetrahedron corners of the spec
scenario with the spec intrinsics. -/
def sGood : EPnP :=
  ⟨4, 800, 800, 320, 320,
   [⟨0, 0, 0⟩, ⟨1, 0, 0⟩, ⟨0, 1, 0⟩, ⟨0, 0, 1⟩],
   [⟨320, 320⟩, ⟨480, 320⟩, ⟨320, 480⟩, ⟨320, 320⟩]⟩

/-- The same instance under a different constructed count. -/
def sGood7 : EPnP :=
  ⟨7, 800, 800, 320, 320,
   [⟨0, 0, 0⟩, ⟨1, 0, 0⟩, ⟨0, 1, 0⟩, ⟨0, 0, 1⟩],
   [⟨320, 320⟩, ⟨480, 320⟩, ⟨320, 480⟩, ⟨320, 320⟩]⟩

/-- An instance holding only three correspondences. -/
def sSmall : EPnP :=
  ⟨3, 1, 1, 0, 0,
   [⟨0, 0, 1⟩, ⟨1, 0, 1⟩, ⟨0, 1, 1⟩],
   [⟨0, 0⟩, ⟨1, 0⟩, ⟨0, 1⟩]⟩

/-- A degenerate instance: four world points, all in the plane Z = 0. -/
def sFlat : EPnP :=
  ⟨4, 1, 1, 0, 0,
   [⟨0, 0, 0⟩, ⟨1, 0, 0⟩, ⟨0, 1, 0⟩, ⟨1, 1, 0⟩],
   [⟨0, 0⟩, ⟨1, 0⟩, ⟨0, 1⟩, ⟨1, 1⟩]⟩

/-- A concrete tracker obeying the documented shape contract: it reports
every point as kept in place, tracked, with zero residual. -/
def trackFix : Tracker := fun a =>
  (a.prevPts, List.replicate a.prevPts.length 1,
   List.replicate a.prevPts.length (0 : ℚ))

/-- A one-pixel luminance image. -/
def imgFix : Luma := [[0]]

/-- A single prior-frame point. -/
def ptsFix : List V2 := [⟨1, 2⟩]

/-- A generator producing no candidate pose at all. -/
def genNone : PoseGen := fun _ _ _ _ _ _ => []

/-! ## Helper lemmas -/

theorem zip_map_snd {α β : Type} (f : α → β) :
    ∀ (l : List α) (pr : α × β), pr ∈ l.zip (l.map f) → pr.2 = f pr.1 := by
  intro l
  induction l with
  | nil => intro pr h; simp at h
  | cons a l ih =>
    intro pr h
    simp only [List.map_cons, List.zip_cons_cons, List.mem_cons] at h
    rcases h with h | h
    · subst h; rfl
    · exact ih pr h

theorem V3.ext3 {p q : V3} (hx : p.x = q.x) (hy : p.y = q.y) (hz : p.z = q.z) : p = q := by
  cases p; cases q; simp_all

theorem V3.dot_comm (p q : V3) : V3.dot p q = V3.dot q p := by
  simp only [V3.dot]; ring

theorem V3.dot_add_right (n p q : V3) :
    V3.dot n (V3.add p q) = V3.dot n p + V3.dot n q := by
  simp only [V3.dot, V3.add]; ring

theorem V3.dot_sub_right (n p q : V3) :
    V3.dot n (V3.sub p q) = V3.dot n p - V3.dot n q := by
  simp only [V3.dot, V3.sub]; ring

theorem V3.dot_smul_right (n : V3) (k : ℚ) (p : V3) :
    V3.dot n (V3.smul k p) = k * V3.dot n p := by
  simp only [V3.dot, V3.smul]; ring

theorem V3.dot_zero_right (n : V3) : V3.dot n V3.zero = 0 := by
  simp [V3.dot, V3.zero]

theorem dot_sumList_const (n : V3) (r : ℚ) :
    ∀ l : List V3, (∀ p ∈ l, V3.dot n p = r) →
      V3.dot n (V3.sumList l) = l.length * r := by
  intro l
  induction l with
  | nil => intro _; simp [V3.sumList, V3.dot_zero_right]
  | cons a l ih =>
    intro h
    have ha := h a (List.mem_cons_self a l)
    have hl := ih (fun p hp => h p (List.mem_cons_of_mem a hp))
    show V3.dot n (V3.add a (V3.sumList l)) = _
    rw [V3.dot_add_right, ha, hl]
    simp only [List.length_cons]
    push_cast
    ring

theorem dot_centroid (n : V3) (r : ℚ) (l : List V3) (hl : l ≠ [])
    (h : ∀ p ∈ l, V3.dot n p = r) : V3.dot n (centroid l) = r := by
  have hn : (l.length : ℚ) ≠ 0 := by
    have := List.length_pos.mpr hl
    exact_mod_cast Nat.pos_iff_ne_zero.mp this
  rw [centroid, V3.dot_smul_right, dot_sumList_const n r l h]
  field_simp

theorem mulVec_addM (m n : M3) (v : V3) :
    (M3.addM m n).mulVec v = V3.add (m.mulVec v) (n.mulVec v) := by
  simp only [M3.mulVec, M3.addM, V3.add, V3.dot, V3.mk.injEq]
  refine ⟨by ring, by ring, by ring⟩

theorem mulVec_smulM (k : ℚ) (m : M3) (v : V3) :
    (M3.smulM k m).mulVec v = V3.smul k (m.mulVec v) := by
  simp only [M3.mulVec, M3.smulM, V3.smul, V3.dot, V3.mk.injEq]
  refine ⟨by ring, by ring, by ring⟩

theorem mulVec_zeroM (v : V3) : M3.zeroM.mulVec v = V3.zero := by
  simp [M3.mulVec, M3.zeroM, V3.dot, V3.zero]

theorem mulVec_vec_zero (m : M3) : m.mulVec V3.zero = V3.zero := by
  simp [M3.mulVec, V3.dot, V3.zero]

theorem mulVec_sumListM_zero (v : V3) :
    ∀ ms : List M3, (∀ m ∈ ms, M3.mulVec m v = V3.zero) →
      (M3.sumListM ms).mulVec v = V3.zero := by
  intro ms
  induction ms with
  | nil => intro _; exact mulVec_zeroM v
  | cons m ms ih =>
    intro h
    show (M3.addM m (M3.sumListM ms)).mulVec v = V3.zero
    rw [mulVec_addM, h m (List.mem_cons_self m ms),
      ih (fun m2 hm => h m2 (List.mem_cons_of_mem m hm))]
    simp [V3.add, V3.zero]

theorem outer_self_mulVec_zero (q v : V3) (h : V3.dot q v = 0) :
    (M3.outer q q).mulVec v = V3.zero := by
  simp only [V3.dot] at h
  simp only [M3.outer, M3.mulVec, V3.dot, V3.zero, V3.mk.injEq]
  refine ⟨by linear_combination q.x * h, by linear_combination q.y * h,
    by linear_combination q.z * h⟩

theorem adj3_mulVec (m : M3) (v : V3) :
    (adj3 m).mulVec (m.mulVec v) = V3.smul (det3 m) v := by
  obtain ⟨⟨a, b, c⟩, ⟨d, e, f⟩, ⟨g, h, i⟩⟩ := m
  obtain ⟨x, y, z⟩ := v
  simp only [M3.mulVec, adj3, det3, det3x, V3.dot, V3.smul, V3.mk.injEq]
  refine ⟨by ring, by ring, by ring⟩

theorem det3_eq_zero_of_kernel (m : M3) (v : V3) (hv : v ≠ V3.zero)
    (h : m.mulVec v = V3.zero) : det3 m = 0 := by
  have h2 := adj3_mulVec m v
  rw [h, mulVec_vec_zero] at h2
  obtain ⟨x, y, z⟩ := v
  simp only [V3.smul, V3.zero, V3.mk.injEq] at h2
  simp only [V3.zero, ne_eq, V3.mk.injEq, not_and] at hv
  obtain ⟨h2x, h2y, h2z⟩ := h2
  by_contra hd
  rcases mul_eq_zero.mp h2x.symm with h3 | h3
  · exact hd h3
  rcases mul_eq_zero.mp h2y.symm with h4 | h4
  · exact hd h4
  rcases mul_eq_zero.mp h2z.symm with h5 | h5
  · exact hd h5
  exact hv h3 h4 h5

theorem covariance_kernel (l : List V3) (n : V3) (r : ℚ) (hl : l ≠ [])
    (h : ∀ p ∈ l, V3.dot n p = r) : (covariance l).mulVec n = V3.zero := by
  rw [covariance, mulVec_smulM, mulVec_sumListM_zero]
  · simp [V3.smul, V3.zero]
  · intro m hm
    simp only [List.mem_map] at hm
    obtain ⟨p, hp, rfl⟩ := hm
    apply outer_self_mulVec_zero
    rw [V3.dot_comm, V3.dot_sub_right, h p hp, dot_centroid n r l hl h]
    ring

theorem degenerate_of_planar (l : List V3) (n : V3) (r : ℚ) (hl : l ≠ [])
    (hv : n ≠ V3.zero) (h : ∀ p ∈ l, V3.dot n p = r) :
    degenerateGeometry l = true := by
  have hz := covariance_kernel l n r hl h
  have hd := det3_eq_zero_of_kernel _ n hv hz
  simp [degenerateGeometry, hd]

theorem compute_insufficient (gen : PoseGen) (s : EPnP)
    (h : s.pw.length < 4 ∨ s.pi.length < 4) : compute gen s = failureResult := by
  simp [compute, h]

theorem compute_degenerate (gen : PoseGen) (s : EPnP)
    (h : degenerateGeometry s.pw = true) : compute gen s = failureResult := by
  by_cases h1 : s.pw.length < 4 ∨ s.pi.length < 4 <;> simp [compute, h1, h]

theorem compute_no_candidates (gen : PoseGen) (s : EPnP)
    (h1 : ¬(s.pw.length < 4 ∨ s.pi.length < 4))
    (hg : gen s.pw s.pi s.fx s.fy s.cx s.cy = []) :
    compute gen s = failureResult := by
  by_cases h2 : degenerateGeometry s.pw = true <;> simp [compute, h1, h2, hg]

theorem compute_main_eq (gen : PoseGen) (s : EPnP)
    (h1 : ¬(s.pw.length < 4 ∨ s.pi.length < 4))
    (h2 : degenerateGeometry s.pw = false) (cand : Pose) (cs : List Pose)
    (hg : gen s.pw s.pi s.fx s.fy s.cx s.cy = cand :: cs) :
    compute gen s =
      ⟨(selectPose s cand cs).R, (selectPose s cand cs).t,
       reprojectionError s (selectPose s cand cs),
       isOrthonormal (selectPose s cand cs).R⟩ := by
  simp [compute, h1, h2, hg]

theorem bary_cramer_sum (c1 c2 c3 c4 p : V3) :
    baryNum1 c1 c2 c3 c4 p + baryNum2 c1 c2 c3 c4 p + baryNum3 c1 c2 c3 c4 p
      + baryNum4 c1 c2 c3 c4 p = controlMatDet c1 c2 c3 c4 := by
  simp only [baryNum1, baryNum2, baryNum3, baryNum4, controlMatDet, det4x, det3x]
  ring

theorem bary_cramer_x (c1 c2 c3 c4 p : V3) :
    baryNum1 c1 c2 c3 c4 p * c1.x + baryNum2 c1 c2 c3 c4 p * c2.x
      + baryNum3 c1 c2 c3 c4 p * c3.x + baryNum4 c1 c2 c3 c4 p * c4.x
      = controlMatDet c1 c2 c3 c4 * p.x := by
  simp only [baryNum1, baryNum2, baryNum3, baryNum4, controlMatDet, det4x, det3x]
  ring

theorem bary_cramer_y (c1 c2 c3 c4 p : V3) :
    baryNum1 c1 c2 c3 c4 p * c1.y + baryNum2 c1 c2 c3 c4 p * c2.y
      + baryNum3 c1 c2 c3 c4 p * c3.y + baryNum4 c1 c2 c3 c4 p * c4.y
      = controlMatDet c1 c2 c3 c4 * p.y := by
  simp only [baryNum1, baryNum2, baryNum3, baryNum4, controlMatDet, det4x, det3x]
  ring

theorem bary_cramer_z (c1 c2 c3 c4 p : V3) :
    baryNum1 c1 c2 c3 c4 p * c1.z + baryNum2 c1 c2 c3 c4 p * c2.z
      + baryNum3 c1 c2 c3 c4 p * c3.z + baryNum4 c1 c2 c3 c4 p * c4.z
      = controlMatDet c1 c2 c3 c4 * p.z := by
  simp only [baryNum1, baryNum2, baryNum3, baryNum4, controlMatDet, det4x, det3x]
  ring

theorem isEmpty_false_of_ne_nil {pts : List V2} (hne : pts ≠ []) :
    pts.isEmpty = false := by
  cases pts with
  | nil => exact absurd rfl hne
  | cons a l => rfl

/-! ## Claim C8 -/

/-- C8: on empty input, computePyrLK returns three empty arrays and does
not invoke the underlying optical-flow tracker at all (the outcome is the
same for every tracker), for every pair of input images. -/
theorem pyrlk_empty_passthrough (t1 t2 : Tracker) (p c : Luma) :
    computePyrLK t1 p c [] = ([], [], []) ∧
      computePyrLK t1 p c [] = computePyrLK t2 p c [] :=
  ⟨rfl, rfl⟩

/-! ## Claim C9 -/

/-- C9: on every non-empty input, computePyrLK invokes the pyramidal
Lucas-Kanade tracker with exactly a 21 by 21 window, 3 pyramid levels and
combined count and epsilon termination (bitmask 3) at 30 iterations and
epsilon 0.01, and, under the documented shape contract of the tracker,
returns index-aligned parallel arrays with one tracked point, one
validity byte and one error scalar per input point. -/
theorem pyrlk_calls_tracker_with_fixed_params (track : Tracker) (p c : Luma)
    (pts : List V2) (hne : pts ≠ []) (hal : alignedTracker track) :
    computePyrLK track p c pts =
      track ⟨p, c, pts, pts, List.replicate pts.length 0,
             List.replicate pts.length 0, 21, 21, 3, ⟨3, 30, 1 / 100⟩, 0,
             1 / 10000⟩ ∧
    (computePyrLK track p c pts).1.length = pts.length ∧
    (computePyrLK track p c pts).2.1.length = pts.length ∧
    (computePyrLK track p c pts).2.2.length = pts.length := by
  have he := isEmpty_false_of_ne_nil hne
  have hlor : Nat.lor TermCriteriaCOUNT TermCriteriaEPS = 3 := by decide
  have hc : computePyrLK track p c pts =
      track ⟨p, c, pts, pts, List.replicate pts.length 0,
             List.replicate pts.length 0, 21, 21, 3, ⟨3, 30, 1 / 100⟩, 0,
             1 / 10000⟩ := by
    rw [computePyrLK, he]
    rw [hlor]
    rfl
  refine ⟨hc, ?_, ?_, ?_⟩
  · rw [hc]; exact (hal _).1
  · rw [hc]; exact (hal _).2.1
  · rw [hc]; exact (hal _).2.2

/-! ## Claim C10 -/

/-- C10: on every non-empty input, computePyrLK sizes all three output
seeds to exactly the input length, initializes the output points to a
copy of the input points, the status bytes to all zeros and the error
scalars to all zeros, and passes flag word 0 and minimum eigenvalue
threshold 0.0001 to the tracker. -/
theorem pyrlk_output_initialization (track : Tracker) (p c : Luma)
    (pts : List V2) (hne : pts ≠ []) :
    let a : LKArgs := ⟨p, c, pts, pts, List.replicate pts.length 0,
      List.replicate pts.length 0, 21, 21, 3, ⟨3, 30, 1 / 100⟩, 0, 1 / 10000⟩
    computePyrLK track p c pts = track a ∧
    a.nextPtsInit = pts ∧
    a.statusInit = List.replicate pts.length 0 ∧
    a.errInit = List.replicate pts.length 0 ∧
    a.nextPtsInit.length = pts.length ∧
    a.statusInit.length = pts.length ∧
    a.errInit.length = pts.length ∧
    a.flags = 0 ∧ a.minEigThreshold = 1 / 10000 := by
  intro a
  have he := isEmpty_false_of_ne_nil hne
  have hlor : Nat.lor TermCriteriaCOUNT TermCriteriaEPS = 3 := by decide
  refine ⟨?_, rfl, rfl, rfl, rfl, List.length_replicate _ _,
    List.length_replicate _ _, rfl, rfl⟩
  rw [computePyrLK, he]
  rw [hlor]
  rfl

theorem pyrlk_calls_tracker_with_fixed_params_witness :
    ptsFix ≠ [] ∧ alignedTracker trackFix ∧
    (computePyrLK trackFix imgFix imgFix ptsFix =
      trackFix ⟨imgFix, imgFix, ptsFix, ptsFix, List.replicate ptsFix.length 0,
                List.replicate ptsFix.length 0, 21, 21, 3, ⟨3, 30, 1 / 100⟩, 0,
                1 / 10000⟩ ∧
     (computePyrLK trackFix imgFix imgFix ptsFix).1.length = ptsFix.length ∧
     (computePyrLK trackFix imgFix imgFix ptsFix).2.1.length = ptsFix.length ∧
     (computePyrLK trackFix imgFix imgFix ptsFix).2.2.length = ptsFix.length) :=
  ⟨by simp [ptsFix], by intro a; simp [trackFix],
   pyrlk_calls_tracker_with_fixed_params trackFix imgFix imgFix ptsFix
    (by simp [ptsFix]) (by intro a; simp [trackFix])⟩

theorem pyrlk_output_initialization_witness :
    ptsFix ≠ [] ∧
    (let a : LKArgs := ⟨imgFix, imgFix, ptsFix, ptsFix,
      List.replicate ptsFix.length 0, List.replicate ptsFix.length 0, 21, 21, 3,
      ⟨3, 30, 1 / 100⟩, 0, 1 / 10000⟩
     computePyrLK trackFix imgFix imgFix ptsFix = trackFix a ∧
     a.nextPtsInit = ptsFix ∧
     a.statusInit = List.replicate ptsFix.length 0 ∧
     a.errInit = List.replicate ptsFix.length 0 ∧
     a.nextPtsInit.length = ptsFix.length ∧
     a.statusInit.length = ptsFix.length ∧
     a.errInit.length = ptsFix.length ∧
     a.flags = 0 ∧ a.minEigThreshold = 1 / 10000) :=
  ⟨by simp [ptsFix],
   pyrlk_output_initialization trackFix imgFix imgFix ptsFix (by simp [ptsFix])⟩

/-! ## Claim C2 -/

/-- C2: every EPnPResult returned by compute with success true carries a
rotation passing the orthonormality check (R times its transpose within
tolerance of the identity and determinant within tolerance of 1); a
rotation failing the check is returned with success cleared instead. -/
theorem epnp_success_implies_orthonormal (gen : PoseGen) (s : EPnP)
    (h : (compute gen s).success = true) :
    frobSq (M3.subM (M3.mulM (compute gen s).R
      (M3.transpose (compute gen s).R)) M3.idM) ≤ orthoTol ∧
    (det3 (compute gen s).R - 1) ^ 2 ≤ orthoTol := by
  by_cases h1 : s.pw.length < 4 ∨ s.pi.length < 4
  · rw [compute_insufficient gen s h1] at h
    exact absurd h (by simp [failureResult])
  · cases h2 : degenerateGeometry s.pw with
    | true =>
      rw [compute_degenerate gen s h2] at h
      exact absurd h (by simp [failureResult])
    | false =>
      cases hg : gen s.pw s.pi s.fx s.fy s.cx s.cy with
      | nil =>
        rw [compute_no_candidates gen s h1 hg] at h
        exact absurd h (by simp [failureResult])
      | cons cand cs =>
        rw [compute_main_eq gen s h1 h2 cand cs hg] at h ⊢
        simp only [isOrthonormal, decide_eq_true_eq] at h
        exact h

theorem epnp_success_implies_orthonormal_witness :
    (compute genId sGood).success = true ∧
    (frobSq (M3.subM (M3.mulM (compute genId sGood).R
      (M3.transpose (compute genId sGood).R)) M3.idM) ≤ orthoTol ∧
    (det3 (compute genId sGood).R - 1) ^ 2 ≤ orthoTol) :=
  ⟨by norm_num [compute, degenerateGeometry, covariance, centroid, V3.sumList,
    V3.add, V3.sub, V3.smul, V3.zero, M3.sumListM, M3.addM, M3.smulM, M3.zeroM,
    M3.outer, det3, det3x, sGood, genId, selectPose, isOrthonormal, frobSq,
    M3.subM, M3.mulM, M3.transpose, M3.idM, V3.dot, orthoTol],
   epnp_success_implies_orthonormal genId sGood
    (by norm_num [compute, degenerateGeometry, covariance, centroid, V3.sumList,
      V3.add, V3.sub, V3.smul, V3.zero, M3.sumListM, M3.addM, M3.smulM, M3.zeroM,
      M3.outer, det3, det3x, sGood, genId, selectPose, isOrthonormal, frobSq,
      M3.subM, M3.mulM, M3.transpose, M3.idM, V3.dot, orthoTol])⟩

/-! ## Claim C3 -/

/-- C3 counterexample: on an instance holding only three correspondences
compute returns the sentinel error value, which differs from the
reprojection error recomputed from the returned rotation, translation and
the stored correspondences, so the claim does not hold of every returned
EPnPResult. -/
theorem epnp_rms_field_counterexample :
    (compute genId sSmall).rmsError ≠
      reprojectionError sSmall ⟨(compute genId sSmall).R, (compute genId sSmall).t⟩ := by
  norm_num [compute, sSmall, failureResult, sentinelError, reprojectionError,
    project, sqDist, M3.mulVec, M3.idM, V3.dot, V3.add, V3.zero]

/-- C3 amended: for every result produced from at least one candidate
after the input-size and degeneracy checks pass, the rmsError field
equals the reprojection error recomputed from the returned rotation and
translation, the configured intrinsics and the supplied correspondences;
the fail-fast paths return the sentinel value instead. -/
theorem epnp_rms_matches_reprojection (gen : PoseGen) (s : EPnP)
    (h1 : ¬(s.pw.length < 4 ∨ s.pi.length < 4))
    (h2 : degenerateGeometry s.pw = false)
    (h3 : gen s.pw s.pi s.fx s.fy s.cx s.cy ≠ []) :
    (compute gen s).rmsError =
      reprojectionError s ⟨(compute gen s).R, (compute gen s).t⟩ := by
  cases hg : gen s.pw s.pi s.fx s.fy s.cx s.cy with
  | nil => exact absurd hg h3
  | cons cand cs =>
    rw [compute_main_eq gen s h1 h2 cand cs hg]

theorem epnp_rms_matches_reprojection_witness :
    ¬(sGood.pw.length < 4 ∨ sGood.pi.length < 4) ∧
    degenerateGeometry sGood.pw = false ∧
    genId sGood.pw sGood.pi sGood.fx sGood.fy sGood.cx sGood.cy ≠ [] ∧
    (compute genId sGood).rmsError =
      reprojectionError sGood ⟨(compute genId sGood).R, (compute genId sGood).t⟩ :=
  ⟨by norm_num [sGood],
   by norm_num [degenerateGeometry, covariance, centroid, V3.sumList, V3.add,
     V3.sub, V3.smul, V3.zero, M3.sumListM, M3.addM, M3.smulM, M3.zeroM,
     M3.outer, det3, det3x, sGood],
   by simp [genId],
   epnp_rms_matches_reprojection genId sGood (by norm_num [sGood])
    (by norm_num [degenerateGeometry, covariance, centroid, V3.sumList, V3.add,
      V3.sub, V3.smul, V3.zero, M3.sumListM, M3.addM, M3.smulM, M3.zeroM,
      M3.outer, det3, det3x, sGood])
    (by simp [genId])⟩

/-! ## Claim C4 -/

/-- C4: with fewer than 4 correspondences compute fails fast, returning
the sentinel failure result without consulting the candidate generator
(the result is identical under every generator), and the failure is
reported through the success flag and the sentinel error value of the
returned EPnPResult; compute is a total function, so a result is always
returned and no exception or termination path exists in the model. -/
theorem epnp_insufficient_input_fails_fast (gen gen2 : PoseGen) (s : EPnP)
    (h : s.pw.length < 4) :
    compute gen s = failureResult ∧ compute gen s = compute gen2 s ∧
    (compute gen s).success = false ∧
    (compute gen s).rmsError = sentinelError := by
  have e1 := compute_insufficient gen s (Or.inl h)
  have e2 := compute_insufficient gen2 s (Or.inl h)
  refine ⟨e1, e1.trans e2.symm, ?_, ?_⟩
  · rw [e1]
    rfl
  · rw [e1]
    rfl

theorem epnp_insufficient_input_fails_fast_witness :
    sSmall.pw.length < 4 ∧
    (compute genId sSmall = failureResult ∧
     compute genId sSmall = compute genNone sSmall ∧
     (compute genId sSmall).success = false ∧
     (compute genId sSmall).rmsError = sentinelError) :=
  ⟨by norm_num [sSmall],
   epnp_insufficient_input_fails_fast genId genNone sSmall (by norm_num [sSmall])⟩

/-! ## Claim C5 -/

/-- C5: every input whose world points all lie on a common plane (which
covers collinear input, in particular all points with Z equal 0) makes
compute return an unsuccessful result, never a pose marked successful;
the degeneracy is caught by the conditioning check on the control-point
covariance, whose determinant vanishes on planar input. -/
theorem epnp_planar_input_not_successful (gen : PoseGen) (s : EPnP)
    (n : V3) (r : ℚ) (hv : n ≠ V3.zero) (h : ∀ p ∈ s.pw, V3.dot n p = r) :
    (compute gen s).success = false := by
  by_cases h1 : s.pw.length < 4 ∨ s.pi.length < 4
  · rw [compute_insufficient gen s h1]
    rfl
  · have hl : s.pw ≠ [] := by
      intro he
      exact h1 (Or.inl (by simp [he]))
    rw [compute_degenerate gen s (degenerate_of_planar s.pw n r hl hv h)]
    rfl

theorem epnp_planar_input_not_successful_witness :
    (⟨0, 0, 1⟩ : V3) ≠ V3.zero ∧
    (∀ p ∈ sFlat.pw, V3.dot ⟨0, 0, 1⟩ p = 0) ∧
    (compute genId sFlat).success = false :=
  ⟨by norm_num [V3.zero], by norm_num [sFlat, V3.dot],
   epnp_planar_input_not_successful genId sFlat ⟨0, 0, 1⟩ 0
    (by norm_num [V3.zero]) (by norm_num [sFlat, V3.dot])⟩

/-! ## Claim C6 -/

/-- C6: whenever the control-point system is nonsingular, every weight
4-tuple produced by the barycentric encoder for an input world point sums
to exactly 1, and the affine combination of the four control points with
these weights reconstructs that world point. -/
theorem barycentric_weights_affine (c1 c2 c3 c4 : V3) (pwl : List V3)
    (p : V3) (w : ℚ × ℚ × ℚ × ℚ) (hd : controlMatDet c1 c2 c3 c4 ≠ 0)
    (hmem : (p, w) ∈ pwl.zip (computeBarycentric c1 c2 c3 c4 pwl)) :
    w.1 + w.2.1 + w.2.2.1 + w.2.2.2 = 1 ∧ baryCombo c1 c2 c3 c4 w = p := by
  have hw : w = baryWeights c1 c2 c3 c4 p :=
    zip_map_snd (baryWeights c1 c2 c3 c4) pwl (p, w) hmem
  subst hw
  constructor
  · simp only [baryWeights]
    rw [div_add_div_same, div_add_div_same, div_add_div_same,
      bary_cramer_sum c1 c2 c3 c4 p, div_self hd]
  · refine V3.ext3 ?_ ?_ ?_
    · simp only [baryCombo, baryWeights, V3.add, V3.smul]
      field_simp
      linear_combination bary_cramer_x c1 c2 c3 c4 p
    · simp only [baryCombo, baryWeights, V3.add, V3.smul]
      field_simp
      linear_combination bary_cramer_y c1 c2 c3 c4 p
    · simp only [baryCombo, baryWeights, V3.add, V3.smul]
      field_simp
      linear_combination bary_cramer_z c1 c2 c3 c4 p

theorem barycentric_weights_affine_witness :
    controlMatDet ⟨0, 0, 0⟩ ⟨1, 0, 0⟩ ⟨0, 1, 0⟩ ⟨0, 0, 1⟩ ≠ 0 ∧
    ((baryWeights ⟨0, 0, 0⟩ ⟨1, 0, 0⟩ ⟨0, 1, 0⟩ ⟨0, 0, 1⟩ ⟨1/2, 1/3, 1/4⟩).1 +
     (baryWeights ⟨0, 0, 0⟩ ⟨1, 0, 0⟩ ⟨0, 1, 0⟩ ⟨0, 0, 1⟩ ⟨1/2, 1/3, 1/4⟩).2.1 +
     (baryWeights ⟨0, 0, 0⟩ ⟨1, 0, 0⟩ ⟨0, 1, 0⟩ ⟨0, 0, 1⟩ ⟨1/2, 1/3, 1/4⟩).2.2.1 +
     (baryWeights ⟨0, 0, 0⟩ ⟨1, 0, 0⟩ ⟨0, 1, 0⟩ ⟨0, 0, 1⟩ ⟨1/2, 1/3, 1/4⟩).2.2.2 = 1 ∧
     baryCombo ⟨0, 0, 0⟩ ⟨1, 0, 0⟩ ⟨0, 1, 0⟩ ⟨0, 0, 1⟩
       (baryWeights ⟨0, 0, 0⟩ ⟨1, 0, 0⟩ ⟨0, 1, 0⟩ ⟨0, 0, 1⟩ ⟨1/2, 1/3, 1/4⟩) =
       ⟨1/2, 1/3, 1/4⟩) :=
  ⟨by norm_num [controlMatDet, det4x, det3x],
   barycentric_weights_affine ⟨0, 0, 0⟩ ⟨1, 0, 0⟩ ⟨0, 1, 0⟩ ⟨0, 0, 1⟩
    [⟨1/2, 1/3, 1/4⟩] ⟨1/2, 1/3, 1/4⟩
    (baryWeights ⟨0, 0, 0⟩ ⟨1, 0, 0⟩ ⟨0, 1, 0⟩ ⟨0, 0, 1⟩ ⟨1/2, 1/3, 1/4⟩)
    (by norm_num [controlMatDet, det4x, det3x])
    (by simp [computeBarycentric])⟩

/-! ## Claim C7 -/

/-- C7: compute is a deterministic function of the current intrinsics and
correspondences of the instance alone: solves performed in between leave
the stored state unchanged, and any two states agreeing on intrinsics and
correspondences produce equal EPnPResults under the same generator, so no
state leaks from one solve into a later one. -/
theorem epnp_compute_deterministic (gen : PoseGen) (s1 s2 : EPnP)
    (ops : List EPnPOp) (hops : ∀ op ∈ ops, op = EPnPOp.solve)
    (hfx : s1.fx = s2.fx) (hfy : s1.fy = s2.fy) (hcx : s1.cx = s2.cx)
    (hcy : s1.cy = s2.cy) (hpw : s1.pw = s2.pw) (hpi : s1.pi = s2.pi) :
    compute gen (runOps s1 ops) = compute gen s2 := by
  have hrun : ∀ (t : EPnP) (l : List EPnPOp),
      (∀ op ∈ l, op = EPnPOp.solve) → runOps t l = t := by
    intro t l
    induction l generalizing t with
    | nil => intro _; rfl
    | cons op l ih =>
      intro hl
      have hop := hl op (List.mem_cons_self op l)
      subst hop
      show runOps (applyOp t EPnPOp.solve) l = t
      exact ih t (fun o ho => hl o (List.mem_cons_of_mem _ ho))
  rw [hrun s1 ops hops]
  obtain ⟨n1, a1, b1, c1, d1, w1, i1⟩ := s1
  obtain ⟨n2, a2, b2, c2, d2, w2, i2⟩ := s2
  dsimp only at hfx hfy hcx hcy hpw hpi
  subst hfx hfy hcx hcy hpw hpi
  rfl

theorem epnp_compute_deterministic_witness :
    (∀ op ∈ [EPnPOp.solve, EPnPOp.solve], op = EPnPOp.solve) ∧
    compute genId (runOps sGood [EPnPOp.solve, EPnPOp.solve]) = compute genId sGood7 :=
  ⟨by simp,
   epnp_compute_deterministic genId sGood sGood7 [EPnPOp.solve, EPnPOp.solve]
    (by simp) rfl rfl rfl rfl rfl rfl⟩

end LaunchLab
